import Mathlib

/-!
# Verification of the reporting-hierarchy engine and session/lockout machine

Shallow embedding of the core of the `abcd-backend2` repository:

* the reporting hierarchy (`reporting.controller.js`, `utils/user.helpers.js`,
  `utils/reporting.helpers.js`),
* the session / lockout state machine (`controllers/auth.controllers.js`,
  `models/userLogin.model.js`).

The persistent store is modelled as association lists keyed by ids
(`Nat` stands for the opaque ObjectId strings).  Each `await Model.findById`
or `findOne` becomes a `List.lookup` / `List.find?`; `doc.save()` becomes
returning the updated record (paths that return before `save()` return the
original record, since nothing was persisted).  Unbounded `while` loops over
database references become fuel-indexed recursions returning `Option`:
`none` means the loop has not terminated within the given number of hops,
and termination of the real loop is `∃ fuel, (run fuel).isSome`.
JavaScript's loose comparisons on possibly-`undefined` numeric fields are
modelled on `Option Nat` with `undefined`-comparisons evaluating to `false`,
exactly as in JS.
-/

/-! ## Data model: users and the `reportingTo` relation

A user document, restricted to the fields the hierarchy engine reads
(`user.model.js`): the nullable `reportingTo` self-reference, the primary
`branch` reference, the `assignedBranches` set, and the populated role's
`roleLevel` (absent when the role document carries no such field). -/

structure UserRec where
  reportingTo : Option Nat := none
  branch : Option Nat := none
  assignedBranches : List Nat := []
  roleLevel : Option Nat := none
  deriving Repr, DecidableEq

/-- The user collection: association list from user id to document. -/
abbrev UDb := List (Nat × UserRec)

/-- `User.findById(x).select("reportingTo")`: `none` when no document with
id `x` exists, otherwise the document's (possibly null) `reportingTo`. -/
def findRep (db : UDb) (x : Nat) : Option (Option Nat) :=
  (db.lookup x).map (fun r => r.reportingTo)

/-- One upward hop of the reporting relation: the manager of `x`, if `x`
exists and has one. -/
def parentOf (db : UDb) (x : Nat) : Option Nat :=
  (db.lookup x).bind (fun r => r.reportingTo)

/-- `n`-fold iterate of `parentOf`: the `n`-th ancestor of `u`, when the
chain is defined that far. -/
def anc (db : UDb) : Nat → Nat → Option Nat
  | 0, u => some u
  | n + 1, u => (parentOf db u).bind (anc db n)

/-- The stored relation has no cycle: no user is its own strict ancestor. -/
def Acyclic (db : UDb) : Prop :=
  ∀ u n, 1 ≤ n → anc db n u ≠ some u

namespace UserHelpers

/-- The `while (current && current.reportingTo)` loop of
`willCreateCircularReporting` in `src/utils/user.helpers.js`, with fuel.
The state is the `findById(...).select("reportingTo")` result for the
current record (`none` = record not found). -/
def uhLoop (db : UDb) (userId : Nat) : Option (Option Nat) → Nat → Option Bool
  | _, 0 => none
  | none, _ + 1 => some false
  | some none, _ + 1 => some false
  | some (some rt), fuel + 1 =>
      if rt = userId then some true
      else uhLoop db userId (findRep db rt) fuel

/-- `willCreateCircularReporting(userId, reportingToId)` from
`src/utils/user.helpers.js` — the variant imported by
`reporting.controller.js`.  `if (!reportingToId) return false`, then walk
upward from `reportingToId` looking for a back-reference to `userId`. -/
def willCreateCircularReporting (db : UDb) (userId : Nat)
    (reportingToId : Option Nat) (fuel : Nat) : Option Bool :=
  match reportingToId with
  | none => some false
  | some rid => uhLoop db userId (findRep db rid) fuel

/-- The real helper's `while` loop terminates on the given inputs. -/
def Terminates (db : UDb) (userId : Nat) (reportingToId : Option Nat) : Prop :=
  ∃ fuel, (willCreateCircularReporting db userId reportingToId fuel).isSome

end UserHelpers

namespace ReportingHelpers

/-- The `while (current)` loop of `willCreateCircularReporting` in
`src/utils/reporting.helpers.js`, carrying the `visited` set. -/
def rhLoop (db : UDb) (userId : Nat) : List Nat → Option Nat → Nat → Option Bool
  | _, _, 0 => none
  | _, none, _ + 1 => some false
  | visited, some cur, fuel + 1 =>
      if cur ∈ visited then some true
      else
        match findRep db cur with
        | none => some false
        | some none => some false
        | some (some rt) =>
            if rt = userId then some true
            else rhLoop db userId (cur :: visited) (some rt) fuel

/-- `willCreateCircularReporting(userId, reportingToId)` from
`src/utils/reporting.helpers.js`: the visited-set variant. -/
def willCreateCircularReporting (db : UDb) (userId : Nat)
    (reportingToId : Option Nat) (fuel : Nat) : Option Bool :=
  rhLoop db userId [] reportingToId fuel

end ReportingHelpers

/-! ## The live `assignReportingAuthority` controller

The module actually resolved by `user.routes.js` (the one exporting
`removeReportingAuthority` and `getUserHierarchy`); it imports
`willCreateCircularReporting` from `utils/user.helpers.js`. -/

/-- Error outcomes (`apiError`s) of `assignReportingAuthority`. -/
inductive AErr where
  | targetNotFound
  | reportingNotFound
  | selfReport
  | circular
  | insufficientSeniority
  | branchScope
  deriving Repr, DecidableEq

/-- JS `a >= b` on possibly-`undefined` numbers: `undefined` compares false. -/
def jsGe : Option Nat → Option Nat → Bool
  | some a, some b => decide (a ≥ b)
  | _, _ => false

/-- JS `a > n` on a possibly-`undefined` number: `undefined` compares false. -/
def jsGtNat : Option Nat → Nat → Bool
  | some a, n => decide (a > n)
  | none, _ => false

/-- Persist `user.reportingTo = v` for the document `findById(id)` found
(the first entry with key `id`). -/
def updateReporting (id : Nat) (v : Option Nat) : UDb → UDb
  | [] => []
  | p :: ps =>
      if p.1 = id then (p.1, { p.2 with reportingTo := v }) :: ps
      else p :: updateReporting id v ps

/-- `assignReportingAuthority` (live `reporting.controller.js`): returns the
persisted user collection together with the outcome; `none` when the
circular-reporting walk exceeds `fuel` hops (the real loop not having
terminated). -/
def assignReportingAuthority (db : UDb) (id : Nat) (reportingToId : Option Nat)
    (fuel : Nat) : Option (UDb × Except AErr Unit) :=
  match db.lookup id with
  | none => some (db, .error .targetNotFound)
  | some user =>
    match reportingToId with
    | none => some (updateReporting id none db, .ok ())
    | some rid =>
      match db.lookup rid with
      | none => some (db, .error .reportingNotFound)
      | some reportingUser =>
        if id = rid then some (db, .error .selfReport)
        else
          match UserHelpers.willCreateCircularReporting db id (some rid) fuel with
          | none => none
          | some true => some (db, .error .circular)
          | some false =>
            if jsGe reportingUser.roleLevel user.roleLevel then
              some (db, .error .insufficientSeniority)
            else
              let isSameBranch :=
                user.branch.isSome && reportingUser.branch.isSome &&
                  user.branch == reportingUser.branch
              let isInAssignedBranches :=
                match user.branch with
                | some b => reportingUser.assignedBranches.contains b
                | none => false
              if !isSameBranch && !isInAssignedBranches &&
                  jsGtNat reportingUser.roleLevel 10 then
                some (db, .error .branchScope)
              else
                some (updateReporting id (some rid) db, .ok ())

/-! ## `getReportingChainUp` -/

/-- The `while (current && current.reportingTo)` loop of
`getReportingChainUp`: state is the current record's `reportingTo`; a
manager id is looked up, pushed, and becomes current; a dangling reference
breaks the loop.  The chain is reported as the list of manager ids. -/
def chainLoop (db : UDb) : Option Nat → Nat → Option (List Nat)
  | none, _ => some []
  | some _, 0 => none
  | some rt, fuel + 1 =>
      match findRep db rt with
      | none => some []
      | some rrt => (chainLoop db rrt fuel).map (fun l => rt :: l)

/-- `getReportingChainUp` (live `reporting.controller.js`): 404 when the
root user is missing, otherwise the ancestor chain bottom-up. -/
def getReportingChainUp (db : UDb) (id : Nat) (fuel : Nat) :
    Option (Except Unit (List Nat)) :=
  match db.lookup id with
  | none => some (.error ())
  | some root => (chainLoop db root.reportingTo fuel).map .ok
/-! ## Session / lockout data model (`userLogin.model.js`)

The secret is stored hashed; the bcrypt hash/compare pair is modelled by
keeping the secret abstract in the `password` field and letting
`bcrypt.compare(candidate, stored)` be equality. -/

/-- One `loginHistory` entry: an open session has no `logoutAt`. -/
structure SessionEntry where
  loginAt : Nat
  logoutAt : Option Nat := none
  deriving Repr, DecidableEq

/-- One entry of the `loggedInDevices` registry. -/
structure Device where
  deviceId : String
  ipAddress : String
  userAgent : String
  loginCount : Nat := 0
  refreshToken : Option String := none
  loginHistory : List SessionEntry := []
  deriving Repr, DecidableEq

/-- The populated `user` document, restricted to the fields the auth
controllers read. -/
structure UserDoc where
  isActive : Bool := true
  canLogin : Bool := true
  lastLogin : Option Nat := none
  deriving Repr, DecidableEq

/-- A `UserLogin` credential document.  Default field values are the schema
defaults of `userLogin.model.js` (in particular `maxAllowedDevices = 2`). -/
structure LoginRec where
  username : String
  password : String
  user : Option UserDoc := none
  failedLoginAttempts : Nat := 0
  lockLevel : Nat := 0
  lockUntil : Option Nat := none
  isPermanentlyLocked : Bool := false
  isLoggedIn : Bool := false
  loggedInDevices : List Device := []
  maxAllowedDevices : Nat := 2
  deriving Repr, DecidableEq

/-- A fresh credential document as the schema's defaults create it. -/
def defaultLoginRec (user : Option UserDoc) (username password : String) :
    LoginRec :=
  { username := username, password := password, user := user }

/-- JS `login.lockUntil && login.lockUntil > new Date()`: null is falsy,
a stored date is truthy and compared to now. -/
def lockActive (lockUntil : Option Nat) (now : Nat) : Bool :=
  match lockUntil with
  | some t => decide (now < t)
  | none => false

/-- `Math.ceil(remainingMs / 60000)` on the remaining lock time. -/
def remainingMinutes (t now : Nat) : Nat :=
  (t - now + 59999) / 60000

/-- Replace the first element satisfying `p` (the in-place mutation of the
object `Array.prototype.find` returned). -/
def updateFirst {α : Type} (p : α → Bool) (f : α → α) : List α → List α
  | [] => []
  | x :: xs => if p x then f x :: xs else x :: updateFirst p f xs

/-- `username.toLowerCase()`, character by character. -/
def strToLower (s : String) : String :=
  ⟨s.data.map Char.toLower⟩

/-- `UserLogin.findOne({ username: username.toLowerCase() })`. -/
def loginFindOne (logins : List LoginRec) (uname : String) : Option LoginRec :=
  logins.find? (fun l => l.username == strToLower uname)

/-- The distinct responses of `loginUser` (`auth.controllers.js`). -/
inductive LoginOutcome where
  | missingFields
  | userNotFound
  | userDetailsNotFound
  | accountInactive
  | cannotLogin
  | permanentlyLocked
  | temporarilyLocked (remainingMin : Nat)
  | lockedNow (minutes : Nat)
  | nowPermanentlyLocked
  | invalidCredentials (attemptsLeft : Nat)
  | alreadyLoggedIn (deviceId : String)
  | deviceLimitExceeded (maxAllowed : Nat)
  | loginSuccess (deviceId accessToken refreshToken : String)
  deriving Repr, DecidableEq

/-- The device-tracking and token-issuance phase of `loginUser`
(lines 94-193 of `auth.controllers.js`), entered after a successful
secret check.  `login1` is the in-memory record with the lock fields
already reset; `login` is the stored document, which the early-return
paths (already logged in, device limit) leave untouched since they exit
before `login.save()`. -/
def loginDevicePhase (login1 : LoginRec) (user : UserDoc) (login : LoginRec)
    (currentDeviceId : String) (now : Nat)
    (ip ua newAccess newRefresh : String) : LoginOutcome × Option LoginRec :=
  let byId := fun (d : Device) => d.deviceId == currentDeviceId
  let byAddr := fun (d : Device) => d.ipAddress == ip && d.userAgent == ua
  let finishExisting := fun (pred : Device → Bool) (device : Device) =>
    let devices' := updateFirst pred
      (fun d => { d with
          loginHistory := d.loginHistory ++ [{ loginAt := now }],
          loginCount := d.loginCount + 1,
          refreshToken := some newRefresh })
      login1.loggedInDevices
    (LoginOutcome.loginSuccess device.deviceId newAccess newRefresh,
     some { login1 with
       loggedInDevices := devices', isLoggedIn := true,
       user := some { user with lastLogin := some now } })
  let device? :=
    match login1.loggedInDevices.find? byId with
    | some d => some (d, byId)
    | none =>
      match login1.loggedInDevices.find? byAddr with
      | some d => some (d, byAddr)
      | none => none
  match device? with
  | some (device, pred) =>
    match device.loginHistory.getLast? with
    | some s =>
      if s.logoutAt.isNone then
        (.alreadyLoggedIn device.deviceId, some login)
      else finishExisting pred device
    | none => finishExisting pred device
  | none =>
    if login1.loggedInDevices.length >= login1.maxAllowedDevices then
      (.deviceLimitExceeded login1.maxAllowedDevices, some login)
    else
      let newDevice : Device :=
        { deviceId := currentDeviceId, ipAddress := ip, userAgent := ua,
          loginCount := 1, refreshToken := some newRefresh,
          loginHistory := [{ loginAt := now }] }
      (.loginSuccess currentDeviceId newAccess newRefresh,
       some { login1 with
         loggedInDevices := login1.loggedInDevices ++ [newDevice],
         isLoggedIn := true,
         user := some { user with lastLogin := some now } })

/-- `loginUser` from `auth.controllers.js`.  The second component is the
credential document as persisted after the request: branches that return
before `login.save()` leave the stored document untouched, so they return
the original record.  `freshId` stands for the `uuidv4()` result,
`newAccess`/`newRefresh` for the two freshly signed JWTs. -/
def loginUser (logins : List LoginRec) (reqUsername reqPassword : String)
    (reqDeviceId : Option String) (now : Nat)
    (ip ua freshId newAccess newRefresh : String) :
    LoginOutcome × Option LoginRec :=
  if reqUsername.isEmpty || reqPassword.isEmpty then (.missingFields, none)
  else
    match loginFindOne logins reqUsername with
    | none => (.userNotFound, none)
    | some login =>
      match login.user with
      | none => (.userDetailsNotFound, some login)
      | some user =>
        if !user.isActive then (.accountInactive, some login)
        else if !user.canLogin then (.cannotLogin, some login)
        else if login.isPermanentlyLocked then (.permanentlyLocked, some login)
        else if lockActive login.lockUntil now then
          (.temporarilyLocked (remainingMinutes (login.lockUntil.getD 0) now),
           some login)
        else if reqPassword != login.password then
          let attempts := login.failedLoginAttempts + 1
          if attempts ≥ 3 then
            let newLevel := login.lockLevel + 1
            match newLevel with
            | 1 => (.lockedNow 1,
                some { login with
                  failedLoginAttempts := 0, lockLevel := 1,
                  lockUntil := some (now + 1 * 60000) })
            | 2 => (.lockedNow 3,
                some { login with
                  failedLoginAttempts := 0, lockLevel := 2,
                  lockUntil := some (now + 3 * 60000) })
            | 3 => (.lockedNow 5,
                some { login with
                  failedLoginAttempts := 0, lockLevel := 3,
                  lockUntil := some (now + 5 * 60000) })
            | _ => (.nowPermanentlyLocked,
                some { login with
                  failedLoginAttempts := 0, lockLevel := newLevel,
                  isPermanentlyLocked := true })
          else
            (.invalidCredentials (3 - attempts),
             some { login with failedLoginAttempts := attempts })
        else
          let login1 := { login with
            failedLoginAttempts := 0, lockLevel := 0,
            lockUntil := none, isPermanentlyLocked := false }
          let currentDeviceId :=
            match reqDeviceId with
            | some d => if d.isEmpty then freshId else d
            | none => freshId
          loginDevicePhase login1 user login currentDeviceId now ip ua
            newAccess newRefresh

/-! ## `reAuthenticateUser` -/

/-- Responses of `reAuthenticateUser`. -/
inductive ReauthOutcome where
  | missingFields
  | loginNotFound
  | incorrectPassword
  | internalError
  | reauthenticated (accessToken : String)
  deriving Repr, DecidableEq

/-- `reAuthenticateUser` from `auth.controllers.js`: looks the credential up
by user id, compares the secret, and signs a fresh access token.  It never
calls `login.save()`, so the credential store is returned unchanged on
every path.  Reading `user._id` off a null populated `user` throws, caught
as a 500. -/
def reAuthenticateUser (logins : List (Nat × LoginRec)) (reqUserId : Option Nat)
    (reqPassword : String) (newAccess : String) :
    ReauthOutcome × List (Nat × LoginRec) :=
  match reqUserId with
  | none => (.missingFields, logins)
  | some uid =>
    if reqPassword.isEmpty then (.missingFields, logins)
    else
      match logins.lookup uid with
      | none => (.loginNotFound, logins)
      | some login =>
        if reqPassword != login.password then (.incorrectPassword, logins)
        else
          match login.user with
          | none => (.internalError, logins)
          | some _ => (.reauthenticated newAccess, logins)

/-! ## `refreshAccessToken` -/

/-- Responses of `refreshAccessToken`. -/
inductive RefreshOutcome where
  | missingFields
  | invalidOrExpired
  | loginNotFound
  | invalidOrRevoked
  | userInactive
  | refreshed (accessToken : String)
  deriving Repr, DecidableEq

/-- JS truthiness of an optional string request field. -/
def jsPresentStr : Option String → Bool
  | some s => !s.isEmpty
  | none => false

/-- `refreshAccessToken` from `auth.controllers.js`.  `verify` is
`jwt.verify(·, REFRESH_TOKEN_KEY)`: `none` when verification throws
(caught as 401), otherwise the decoded user id.  The store is keyed by
user id (`UserLogin.findOne({ user: decoded.id })`).  No path persists
anything, so the store is returned unchanged. -/
def refreshAccessToken (logins : List (Nat × LoginRec))
    (verify : String → Option Nat) (reqRefreshToken reqDeviceId : Option String)
    (newAccess : String) : RefreshOutcome × List (Nat × LoginRec) :=
  if !jsPresentStr reqRefreshToken || !jsPresentStr reqDeviceId then
    (.missingFields, logins)
  else
    match reqRefreshToken, reqDeviceId with
    | some token, some did =>
      match verify token with
      | none => (.invalidOrExpired, logins)
      | some uid =>
        match logins.lookup uid with
        | none => (.loginNotFound, logins)
        | some login =>
          match login.loggedInDevices.find?
              (fun d => d.deviceId == did && d.refreshToken == some token) with
          | none => (.invalidOrRevoked, logins)
          | some _ =>
            match login.user with
            | none => (.userInactive, logins)
            | some user =>
              if !user.isActive then (.userInactive, logins)
              else (.refreshed newAccess, logins)
    | _, _ => (.missingFields, logins)

/-! ## Bulk termination (`logoutSelectedUsers`, `logoutAllBelowUsers`)

Both controllers filter target users through a call to `canLogout`, an
identifier that is neither defined in `auth.controllers.js` nor among its
imports (lines 1–5 import only `User`, `UserLogin`, `bcrypt`, `jwt`,
`uuidv4`).  Evaluating the filter callback therefore throws a
`ReferenceError`, caught by the `catch` block as a 500 — but JavaScript's
`Array.prototype.filter` never invokes the callback on an empty array, so
with no fetched targets the reference is never evaluated.  Identifier
resolution is modelled explicitly; the callback continuation behind the
unresolvable call can never run and its value is an arbitrary stand-in
(chosen so every target would pass). -/

/-- The JS exception relevant here. -/
inductive JsErr where
  | referenceError
  deriving Repr, DecidableEq

/-- Identifiers in scope at module level in `auth.controllers.js`:
the five imports and the module's own exported consts.  `canLogout` is
not among them. -/
def authControllersScope : List String :=
  ["User", "UserLogin", "bcrypt", "jwt", "uuidv4",
   "loginUser", "logoutUser", "refreshAccessToken", "reAuthenticateUser",
   "logoutFromAllDevices", "logoutSelectedUsers", "logoutAllBelowUsers"]

/-- Resolving a free identifier at runtime: a `ReferenceError` when it is
not in scope. -/
def resolveIdent (scope : List String) (x : String) : Except JsErr Unit :=
  if x ∈ scope then .ok () else .error .referenceError

/-- `Array.prototype.filter` with a throwing callback: the callback runs
left to right and the first exception propagates; on `[]` the callback is
never invoked. -/
def filterE {α : Type} (f : α → Except JsErr Bool) :
    List α → Except JsErr (List α)
  | [] => .ok []
  | x :: xs => do
      let b ← f x
      let r ← filterE f xs
      pure (if b then x :: r else r)

/-- The populated `role` of a user; the role schema has no `level` field,
so `role.level` may be `undefined`. -/
structure RoleDoc where
  level : Option Nat := none
  deriving Repr, DecidableEq

/-- Responses of the bulk-termination controllers. -/
inductive BulkOutcome where
  | invalidInput
  | actorNotFound
  | notAuthorized
  | noEligible
  | internalError
  | loggedOutSelected (count skipped : Nat)
  | loggedOutAll (count : Nat)
  deriving Repr, DecidableEq

/-- Close every open session of a device and clear its refresh token. -/
def closeDeviceSessions (now : Nat) (d : Device) : Device :=
  { d with
    loginHistory := d.loginHistory.map (fun s =>
      if s.logoutAt.isNone then { s with logoutAt := some now } else s),
    refreshToken := none }

/-- Close every open session of a credential record. -/
def closeLoginSessions (now : Nat) (l : LoginRec) : LoginRec :=
  { l with
    loggedInDevices := l.loggedInDevices.map (closeDeviceSessions now),
    isLoggedIn := false }

/-- `logoutSelectedUsers` from `auth.controllers.js`.  `users` is the user
collection projected to populated roles; `logins` is the credential store
keyed by user id; the returned store is the state after the request. -/
def logoutSelectedUsers (reqUserIds : Option (List Nat)) (actorId : Nat)
    (users : List (Nat × RoleDoc)) (logins : List (Nat × LoginRec))
    (now : Nat) : BulkOutcome × List (Nat × LoginRec) :=
  match reqUserIds with
  | none => (.invalidInput, logins)
  | some ids =>
    if ids.isEmpty then (.invalidInput, logins)
    else
      match users.lookup actorId with
      | none => (.actorNotFound, logins)
      | some _actorRole =>
        let targetUsers := users.filter (fun p => decide (p.1 ∈ ids))
        match filterE (fun u =>
            (resolveIdent authControllersScope "canLogout").bind
              (fun _ => pure (decide (u.1 ≠ actorId)))) targetUsers with
        | .error _ => (.internalError, logins)
        | .ok validTargets =>
          if validTargets.isEmpty then (.noEligible, logins)
          else
            let targetIds := validTargets.map Prod.fst
            let logins' := logins.map (fun p =>
              if p.1 ∈ targetIds then (p.1, closeLoginSessions now p.2) else p)
            (.loggedOutSelected
               (logins.filter (fun p => decide (p.1 ∈ targetIds))).length
               (targetUsers.length - validTargets.length),
             logins')

/-- `logoutAllBelowUsers` from `auth.controllers.js`.  The seniority gate
`actorLevel > 2` is JS `>` on a possibly-`undefined` `role.level`. -/
def logoutAllBelowUsers (actorId : Nat) (users : List (Nat × RoleDoc))
    (logins : List (Nat × LoginRec)) (now : Nat) :
    BulkOutcome × List (Nat × LoginRec) :=
  match users.lookup actorId with
  | none => (.actorNotFound, logins)
  | some actorRole =>
    if jsGtNat actorRole.level 2 then (.notAuthorized, logins)
    else
      let others := users.filter (fun p => decide (p.1 ≠ actorId))
      match filterE (fun _ =>
          (resolveIdent authControllersScope "canLogout").bind
            (fun _ => pure true)) others with
      | .error _ => (.internalError, logins)
      | .ok targetUsers =>
        let targetIds := targetUsers.map Prod.fst
        let logins' := logins.map (fun p =>
          if p.1 ∈ targetIds then (p.1, closeLoginSessions now p.2) else p)
        (.loggedOutAll targetUsers.length, logins')

/-! ## Concrete stores used to instantiate the theorems -/

/-- A three-user chain `3 → 2 → 1` (manager ids decrease upward). -/
def exChainDb : UDb :=
  [(1, {}), (2, { reportingTo := some 1 }), (3, { reportingTo := some 2 })]

/-- A store whose `reportingTo` relation already contains the cycle
`1 → 2 → 1`, not passing through user `0`. -/
def exCycleDb : UDb :=
  [(1, { reportingTo := some 2 }), (2, { reportingTo := some 1 })]

/-- Target (rank 5) and junior candidate manager (rank 10), same branch. -/
def exSenDb : UDb :=
  [(1, { roleLevel := some 5, branch := some 7 }),
   (2, { roleLevel := some 10, branch := some 7 })]

/-- Target (rank 5) and senior candidate manager (rank 3), same branch. -/
def exOkDb : UDb :=
  [(1, { roleLevel := some 5, branch := some 7 }),
   (2, { roleLevel := some 3, branch := some 7 })]

/-- A credential with two prior failed attempts, a past temporary lock,
and an open session on device `d1`; the correct secret is `pw`. -/
def exLogin : LoginRec :=
  { username := "alice", password := "pw", user := some {},
    failedLoginAttempts := 2, lockLevel := 1, lockUntil := some 5,
    loggedInDevices :=
      [{ deviceId := "d1", ipAddress := "ip1", userAgent := "ua1",
         loginCount := 1, refreshToken := some "r0",
         loginHistory := [{ loginAt := 1 }] }] }

/-- A permanently locked credential for an inactive, login-disabled user. -/
def exLockedLogin : LoginRec :=
  { username := "bob", password := "pw", user := some { isActive := false, canLogin := false },
    failedLoginAttempts := 1, lockLevel := 4, lockUntil := some 999999999,
    isPermanentlyLocked := true }


/-! ## Lemmas about lookups, updates and ancestor chains -/

theorem mem_of_lookup_eq_some {α β : Type} [BEq α] [LawfulBEq α]
    {l : List (α × β)} {a : α} {b : β} (h : l.lookup a = some b) : (a, b) ∈ l := by
  induction l with
  | nil => simp [List.lookup] at h
  | cons p ps ih =>
    rw [List.lookup] at h
    rcases hab : a == p.1 with _ | _
    · rw [hab] at h
      exact List.mem_cons_of_mem _ (ih h)
    · rw [hab] at h
      obtain rfl : a = p.1 := eq_of_beq hab
      cases h
      exact List.mem_cons_self _ _

theorem lookup_updateReporting (db : UDb) (t : Nat) (v : Option Nat) (x : Nat) :
    (updateReporting t v db).lookup x =
      if x = t then (db.lookup t).map (fun r => { r with reportingTo := v })
      else db.lookup x := by
  induction db with
  | nil => simp [updateReporting, List.lookup]
  | cons p ps ih =>
    rcases p with ⟨k, r⟩
    by_cases hpt : k = t
    · subst hpt
      by_cases hxt : x = k
      · subst hxt
        simp [updateReporting, List.lookup]
      · have hb : (x == k) = false := by simp [hxt]
        simp [updateReporting, List.lookup, hxt, hb]
    · by_cases hxk : x = k
      · subst hxk
        have hb : ¬x = t := hpt
        simp [updateReporting, List.lookup, hpt, hb]
      · have hb : (x == k) = false := by simp [hxk]
        have hb2 : (t == k) = false := by simp; omega
        simp [updateReporting, List.lookup, hpt, hb, hb2, ih]

theorem parentOf_updateReporting_ne {t x : Nat} (db : UDb) (v : Option Nat)
    (hx : x ≠ t) : parentOf (updateReporting t v db) x = parentOf db x := by
  simp [parentOf, lookup_updateReporting, hx]

theorem parentOf_updateReporting_self {t : Nat} {db : UDb} {u : UserRec}
    (v : Option Nat) (h : db.lookup t = some u) :
    parentOf (updateReporting t v db) t = v := by
  simp [parentOf, lookup_updateReporting, h]

theorem anc_add (db : UDb) (a b u : Nat) :
    anc db (a + b) u = (anc db a u).bind (anc db b) := by
  induction a generalizing u with
  | zero => simp [anc]
  | succ n ih =>
    have h : n + 1 + b = (n + b) + 1 := by omega
    rw [h, anc, anc]
    cases parentOf db u with
    | none => simp
    | some w => simp [ih]

theorem anc_congr_avoid {d1 d2 : UDb} {t : Nat}
    (hagree : ∀ x, x ≠ t → parentOf d1 x = parentOf d2 x) :
    ∀ n u, (∀ i, i < n → anc d1 i u ≠ some t) → anc d2 n u = anc d1 n u := by
  intro n
  induction n with
  | zero => intro u _; simp [anc]
  | succ k ih =>
    intro u havoid
    have hu : u ≠ t := by
      intro h
      exact havoid 0 (by omega) (by simp [anc, h])
    rw [anc, anc, ← hagree u hu]
    cases hp : parentOf d1 u with
    | none => simp
    | some w =>
      simp only [Option.some_bind]
      exact ih w (fun i hi hit => havoid (i + 1) (by omega)
        (by rw [anc, hp, Option.some_bind]; exact hit))

/-! ## Behaviour of the `user.helpers.js` circular-reporting walk -/

open UserHelpers in
theorem uhLoop_mono (db : UDb) (uid : Nat) :
    ∀ f g s b, uhLoop db uid s f = some b → f ≤ g → uhLoop db uid s g = some b := by
  intro f
  induction f with
  | zero => intro g s b h _; simp [uhLoop] at h
  | succ n ih =>
    intro g s b h hle
    obtain ⟨m, rfl⟩ : ∃ m, g = m + 1 := ⟨g - 1, by omega⟩
    have hnm : n ≤ m := by omega
    match s with
    | none => simpa [uhLoop] using h
    | some none => simpa [uhLoop] using h
    | some (some rt) =>
      rw [uhLoop] at h ⊢
      by_cases hrt : rt = uid
      · simpa [hrt] using h
      · rw [if_neg hrt] at h ⊢
        exact ih m _ b h hnm

open UserHelpers in
/-- If `t` is a strict ancestor of `m` (reachable in `n ≥ 1` hops), the
`user.helpers.js` walk from `m` finds it within `n` hops of fuel. -/
theorem uhLoop_of_anc (db : UDb) (t : Nat) :
    ∀ n m, 1 ≤ n → anc db n m = some t →
      uhLoop db t (findRep db m) n = some true := by
  intro n
  induction n with
  | zero => intro m h; omega
  | succ k ih =>
    intro m _ hanc
    rw [anc] at hanc
    cases hp : parentOf db m with
    | none => rw [hp] at hanc; simp at hanc
    | some w =>
      rw [hp] at hanc
      simp only [Option.some_bind] at hanc
      obtain ⟨r, hr, hrt⟩ : ∃ r, db.lookup m = some r ∧ r.reportingTo = some w := by
        simp only [parentOf] at hp
        cases hl : db.lookup m with
        | none => rw [hl] at hp; simp at hp
        | some r => rw [hl] at hp; exact ⟨r, rfl, hp⟩
      have hfind : findRep db m = some (some w) := by simp [findRep, hr, hrt]
      rw [hfind, uhLoop]
      by_cases hw : w = t
      · simp [hw]
      · rw [if_neg hw]
        cases k with
        | zero => simp [anc] at hanc; omega
        | succ k' => exact ih w (by omega) hanc

open UserHelpers in
/-- If the `user.helpers.js` walk from `m` returns `false`, no ancestor of
`m` is `t`: the chain from `m` never reaches `t`. -/
theorem uhLoop_false_not_anc (db : UDb) (t : Nat) :
    ∀ f m, uhLoop db t (findRep db m) f = some false → m ≠ t →
      ∀ i, anc db i m ≠ some t := by
  intro f
  induction f with
  | zero => intro m h; simp [uhLoop] at h
  | succ n ih =>
    intro m h hmt i
    cases hl : db.lookup m with
    | none =>
      cases i with
      | zero => simp [anc]; omega
      | succ j => simp [anc, parentOf, hl]
    | some r =>
      cases hrt : r.reportingTo with
      | none =>
        cases i with
        | zero => simp [anc]; omega
        | succ j => simp [anc, parentOf, hl, hrt]
      | some w =>
        have hfind : findRep db m = some (some w) := by simp [findRep, hl, hrt]
        rw [hfind, uhLoop] at h
        by_cases hw : w = t
        · rw [if_pos hw] at h; simp at h
        · rw [if_neg hw] at h
          cases i with
          | zero => simp [anc]; omega
          | succ j =>
            rw [anc, parentOf, hl]
            simp only [hrt, Option.some_bind]
            exact ih w h hw j

/-! ## The assignment operation and acyclicity -/

theorem assign_ok_elim {db db' : UDb} {t m fuel : Nat}
    (h : assignReportingAuthority db t (some m) fuel = some (db', .ok ())) :
    ∃ u r, db.lookup t = some u ∧ db.lookup m = some r ∧ t ≠ m ∧
      UserHelpers.willCreateCircularReporting db t (some m) fuel = some false ∧
      db' = updateReporting t (some m) db := by
  rw [assignReportingAuthority] at h
  cases hlt : db.lookup t with
  | none => rw [hlt] at h; simp at h
  | some u =>
    rw [hlt] at h
    simp only at h
    cases hlm : db.lookup m with
    | none => rw [hlm] at h; simp at h
    | some r =>
      rw [hlm] at h
      simp only at h
      by_cases htm : t = m
      · rw [if_pos htm] at h; simp at h
      · rw [if_neg htm] at h
        cases hw : UserHelpers.willCreateCircularReporting db t (some m) fuel with
        | none => rw [hw] at h; simp at h
        | some b =>
          rw [hw] at h
          cases b with
          | true => simp at h
          | false =>
            simp only at h
            refine ⟨u, r, rfl, rfl, htm, rfl, ?_⟩
            by_cases hsen : jsGe r.roleLevel u.roleLevel
            · rw [if_pos hsen] at h; simp at h
            · rw [if_neg hsen] at h
              split at h
              · simp at h
              · simp only [Option.some.injEq, Prod.mk.injEq] at h
                exact h.1.symm

theorem assign_circular_eval {db : UDb} {t m fuel : Nat} {u r : UserRec}
    (hlt : db.lookup t = some u) (hlm : db.lookup m = some r) (htm : t ≠ m)
    (hw : UserHelpers.willCreateCircularReporting db t (some m) fuel = some true) :
    assignReportingAuthority db t (some m) fuel = some (db, .error .circular) := by
  rw [assignReportingAuthority, hlt]
  simp only
  rw [hlm]
  simp only
  rw [if_neg htm, hw]

open UserHelpers in
theorem wcr_not_false_of_anc {db : UDb} {t m n fuel : Nat}
    (hn : 1 ≤ n) (ha : anc db n m = some t) :
    UserHelpers.willCreateCircularReporting db t (some m) fuel ≠ some false := by
  intro hf
  have htrue := uhLoop_of_anc db t n m hn ha
  have h1 : uhLoop db t (findRep db m) (max fuel n) = some true :=
    uhLoop_mono db t n (max fuel n) _ true htrue (le_max_right _ _)
  have h2 : uhLoop db t (findRep db m) (max fuel n) = some false :=
    uhLoop_mono db t fuel (max fuel n) _ false
      (by simpa [UserHelpers.willCreateCircularReporting] using hf) (le_max_left _ _)
  rw [h1] at h2
  simp at h2

theorem acyclic_preserved {db db' : UDb} {t m fuel : Nat}
    (hac : Acyclic db)
    (h : assignReportingAuthority db t (some m) fuel = some (db', .ok ())) :
    Acyclic db' := by
  obtain ⟨u, r, hlt, hlm, htm, hwcr, rfl⟩ := assign_ok_elim h
  have hnm : ∀ i, anc db i m ≠ some t := by
    have huh : UserHelpers.uhLoop db t (findRep db m) fuel = some false := by
      simpa [UserHelpers.willCreateCircularReporting] using hwcr
    exact uhLoop_false_not_anc db t fuel m huh (fun he => htm he.symm)
  intro v n hn hcyc
  by_cases hvisit : ∃ i, i < n ∧ anc (updateReporting t (some m) db) i v = some t
  · obtain ⟨i, hin, hit⟩ := hvisit
    have hsplit : anc (updateReporting t (some m) db) n v =
        (anc (updateReporting t (some m) db) i v).bind
          (anc (updateReporting t (some m) db) (n - i)) := by
      rw [← anc_add]
      congr 1
      omega
    rw [hsplit, hit, Option.some_bind] at hcyc
    have hcyct : anc (updateReporting t (some m) db) ((n - i) + i) t = some t := by
      rw [anc_add, hcyc, Option.some_bind]
      exact hit
    have hni : (n - i) + i = n := by omega
    rw [hni] at hcyct
    obtain ⟨k, rfl⟩ : ∃ k, n = k + 1 := ⟨n - 1, by omega⟩
    rw [anc, parentOf_updateReporting_self (some m) hlt] at hcyct
    simp only [Option.some_bind] at hcyct
    have hagree : ∀ x, x ≠ t →
        parentOf db x = parentOf (updateReporting t (some m) db) x :=
      fun x hx => (parentOf_updateReporting_ne db (some m) hx).symm
    have htrans := anc_congr_avoid hagree k m (fun i _ => hnm i)
    rw [htrans] at hcyct
    exact hnm k hcyct
  · push_neg at hvisit
    have hagree : ∀ x, x ≠ t →
        parentOf (updateReporting t (some m) db) x = parentOf db x :=
      fun x hx => parentOf_updateReporting_ne db (some m) hx
    have htrans := anc_congr_avoid hagree n v hvisit
    exact hac v n hn (htrans.trans hcyc)

theorem acyclic_of_keyDecreasing (db : UDb)
    (h : ∀ p ∈ db, ∀ v, p.2.reportingTo = some v → v < p.1) : Acyclic db := by
  have hpar : ∀ u v, parentOf db u = some v → v < u := by
    intro u v hp
    rw [parentOf] at hp
    cases hl : db.lookup u with
    | none => rw [hl] at hp; simp at hp
    | some r =>
      rw [hl] at hp
      simp only [Option.some_bind] at hp
      exact h (u, r) (mem_of_lookup_eq_some hl) v hp
  have hanc : ∀ n u v, anc db n u = some v → v + n ≤ u := by
    intro n
    induction n with
    | zero => intro u v hv; simp [anc] at hv; omega
    | succ k ih =>
      intro u v hv
      rw [anc] at hv
      cases hp : parentOf db u with
      | none => rw [hp] at hv; simp at hv
      | some w =>
        rw [hp] at hv
        simp only [Option.some_bind] at hv
        have h1 := ih w v hv
        have h2 := hpar u w hp
        omega
  intro u n hn hcyc
  have := hanc n u u hcyc
  omega

/-! ## Termination of the visited-set walk (`reporting.helpers.js`) -/

theorem filter_length_le {α : Type} (l : List α) (p q : α → Bool)
    (himp : ∀ x, q x = true → p x = true) :
    (l.filter q).length ≤ (l.filter p).length := by
  induction l with
  | nil => simp
  | cons x xs ih =>
    by_cases hq : q x = true
    · simp [List.filter, hq, himp x hq]
      omega
    · have hq' : q x = false := by revert hq; cases q x <;> simp
      by_cases hp : p x = true
      · simp [List.filter, hq', hp]
        omega
      · have hp' : p x = false := by revert hp; cases p x <;> simp
        simp [List.filter, hq', hp']
        exact ih

theorem filter_length_lt {α : Type} (l : List α) (p q : α → Bool)
    (himp : ∀ x, q x = true → p x = true) (a : α) (ha : a ∈ l)
    (hap : p a = true) (haq : q a = false) :
    (l.filter q).length < (l.filter p).length := by
  induction l with
  | nil => simp at ha
  | cons x xs ih =>
    rcases List.mem_cons.mp ha with rfl | hmem
    · simp [List.filter, hap, haq]
      have := filter_length_le xs p q himp
      omega
    · by_cases hq : q x = true
      · simp [List.filter, hq, himp x hq]
        exact ih hmem
      · have hq' : q x = false := by revert hq; cases q x <;> simp
        by_cases hp : p x = true
        · simp [List.filter, hq', hp]
          have := ih hmem
          omega
        · have hp' : p x = false := by revert hp; cases p x <;> simp
          simp [List.filter, hq', hp']
          exact ih hmem

open ReportingHelpers in
theorem rhLoop_terminates (db : UDb) (uid : Nat) :
    ∀ fuel visited cur,
      (db.filter (fun p => decide (p.1 ∉ visited))).length < fuel →
      rhLoop db uid visited cur fuel ≠ none := by
  intro fuel
  induction fuel with
  | zero => intro visited cur h; exact absurd h (Nat.not_lt_zero _)
  | succ n ih =>
    intro visited cur h
    match cur with
    | none => simp [rhLoop]
    | some c =>
      rw [rhLoop]
      by_cases hv : c ∈ visited
      · simp [hv]
      · rw [if_neg hv]
        cases hf : findRep db c with
        | none => simp
        | some rt =>
          cases rt with
          | none => simp
          | some w =>
            simp only
            by_cases hw : w = uid
            · simp [hw]
            · rw [if_neg hw]
              apply ih
              obtain ⟨r, hr⟩ : ∃ r, db.lookup c = some r := by
                rw [findRep] at hf
                cases hl : db.lookup c with
                | none => rw [hl] at hf; simp at hf
                | some r => exact ⟨r, rfl⟩
              have hmem : (c, r) ∈ db := mem_of_lookup_eq_some hr
              have hlt := filter_length_lt db
                (fun p => decide (p.1 ∉ visited))
                (fun p => decide (p.1 ∉ c :: visited))
                (by
                  intro x hx
                  simp at hx ⊢
                  intro hxv
                  exact hx.2 hxv)
                (c, r) hmem (by simpa using hv) (by simp)
              omega

/-! ## Relating the circular check to `getReportingChainUp` -/

open UserHelpers in
theorem chainLoop_of_uhLoop_false {db db' : UDb} {u : Nat}
    (hagree : ∀ x, x ≠ u → findRep db' x = findRep db x) :
    ∀ f c, uhLoop db u (some c) f = some false →
      ∃ l, chainLoop db' c f = some l := by
  intro f
  induction f with
  | zero => intro c h; simp [uhLoop] at h
  | succ n ih =>
    intro c h
    match c with
    | none => exact ⟨[], rfl⟩
    | some rt =>
      rw [uhLoop] at h
      by_cases hrt : rt = u
      · rw [if_pos hrt] at h; simp at h
      · rw [if_neg hrt] at h
        rw [chainLoop, hagree rt hrt]
        cases hf : findRep db rt with
        | none => exact ⟨[], rfl⟩
        | some rrt =>
          rw [hf] at h
          obtain ⟨l, hl⟩ := ih rrt h
          exact ⟨rt :: l, by simp [hl]⟩

theorem assign_none_eval {db : UDb} {t m fuel : Nat} {u r : UserRec}
    (hlt : db.lookup t = some u) (hlm : db.lookup m = some r) (htm : t ≠ m)
    (hw : UserHelpers.willCreateCircularReporting db t (some m) fuel = none) :
    assignReportingAuthority db t (some m) fuel = none := by
  rw [assignReportingAuthority, hlt]
  simp only
  rw [hlm]
  simp only
  rw [if_neg htm, hw]

/-! ## Claim theorems: hierarchy engine -/

/-- **C4**: starting from any acyclic `reportingTo` store, assigning a
manager that is a transitive descendant of the target (any depth,
including a direct report) always fails with the circular-reporting error
and leaves the store unchanged, and every successful assignment preserves
acyclicity — so no sequence of successful `assignReportingAuthority`
calls ever makes a user its own transitive ancestor. -/
theorem assignReporting_prevents_cycles (db : UDb) (hac : Acyclic db) :
    (∀ t m, (db.lookup t).isSome → (db.lookup m).isSome →
        (∃ n, 1 ≤ n ∧ anc db n m = some t) →
        (∃ fuel, (assignReportingAuthority db t (some m) fuel).isSome) ∧
        ∀ fuel res, assignReportingAuthority db t (some m) fuel = some res →
          res = (db, .error .circular)) ∧
    (∀ t m fuel db', assignReportingAuthority db t (some m) fuel =
        some (db', .ok ()) → Acyclic db') := by
  constructor
  · rintro t m hlt hlm ⟨n, hn, hanc⟩
    obtain ⟨u, hu⟩ := Option.isSome_iff_exists.mp hlt
    obtain ⟨r, hr⟩ := Option.isSome_iff_exists.mp hlm
    have htm : t ≠ m := by
      rintro rfl
      exact hac _ n hn hanc
    have hwtrue : UserHelpers.willCreateCircularReporting db t (some m) n =
        some true := by
      simpa [UserHelpers.willCreateCircularReporting] using
        uhLoop_of_anc db t n m hn hanc
    constructor
    · exact ⟨n, by rw [assign_circular_eval hu hr htm hwtrue]; rfl⟩
    · intro fuel res hres
      cases hw : UserHelpers.willCreateCircularReporting db t (some m) fuel with
      | none => rw [assign_none_eval hu hr htm hw] at hres; cases hres
      | some b =>
        cases b with
        | false => exact absurd hw (wcr_not_false_of_anc hn hanc)
        | true =>
          rw [assign_circular_eval hu hr htm hw] at hres
          exact (Option.some_inj.mp hres).symm
  · intro t m fuel db' h
    exact acyclic_preserved hac h

/-- Witness for C4 at a concrete store: in the acyclic chain `3 → 2 → 1`,
re-assigning user 1 to report to its transitive descendant 3 fails with
the circular error and leaves the store unchanged. -/
theorem assignReporting_prevents_cycles_witness :
    assignReportingAuthority exChainDb 1 (some 3) 5 =
      some (exChainDb, .error .circular) := by
  have hac : Acyclic exChainDb := acyclic_of_keyDecreasing exChainDb (by decide)
  have h := (assignReporting_prevents_cycles exChainDb hac).1 1 3
    (by decide) (by decide) ⟨2, by omega, by decide⟩
  obtain ⟨res, hres⟩ := Option.isSome_iff_exists.mp
    (show (assignReportingAuthority exChainDb 1 (some 3) 5).isSome by decide)
  rw [hres, h.2 5 res hres]

/-- **C3**: when target and candidate manager both exist, the ids are
distinct, the circular check passes, and both populated roles carry a
rank, a candidate whose rank is not strictly more senior (not strictly
lower, by the lower-is-senior convention) is rejected with the
insufficient-seniority error, and the store — hence the target's
`reportingTo` — is returned unchanged. -/
theorem assignReporting_insufficient_seniority (db : UDb) (id rid : Nat)
    (u m : UserRec) (fuel ma ua : Nat)
    (hlt : db.lookup id = some u) (hlm : db.lookup rid = some m)
    (hne : id ≠ rid)
    (hwcr : UserHelpers.willCreateCircularReporting db id (some rid) fuel =
      some false)
    (hmr : m.roleLevel = some ma) (hur : u.roleLevel = some ua)
    (hsen : ua ≤ ma) :
    assignReportingAuthority db id (some rid) fuel =
      some (db, .error .insufficientSeniority) := by
  rw [assignReportingAuthority, hlt]
  simp only
  rw [hlm]
  simp only
  rw [if_neg hne, hwcr]
  simp only
  have hges : jsGe m.roleLevel u.roleLevel = true := by
    rw [hmr, hur]
    simp [jsGe]
    omega
  rw [if_pos hges]

/-- Witness for C3: target of rank 5 and junior candidate of rank 10 in
the same branch — the assignment fails with the seniority error and the
store is unchanged (the §8 scenario of the spec). -/
theorem assignReporting_insufficient_seniority_witness :
    assignReportingAuthority exSenDb 1 (some 2) 1 =
      some (exSenDb, .error .insufficientSeniority) :=
  assignReporting_insufficient_seniority exSenDb 1 2
    { roleLevel := some 5, branch := some 7 }
    { roleLevel := some 10, branch := some 7 }
    1 10 5 (by decide) (by decide) (by decide) (by decide) rfl rfl (by omega)

/-- **C10**: whenever `assignReportingAuthority(u, m)` succeeds, an
immediately following `getReportingChainUp(u)` on the persisted store
terminates and returns a non-empty chain whose first element is `m`. -/
theorem assign_then_chainUp_head {db db' : UDb} {u m fuel : Nat}
    (h : assignReportingAuthority db u (some m) fuel = some (db', .ok ())) :
    ∃ g l, getReportingChainUp db' u g = some (.ok (m :: l)) := by
  obtain ⟨ur, mr, hlt, hlm, hum, hwcr, rfl⟩ := assign_ok_elim h
  have hmu : m ≠ u := fun hmu => hum hmu.symm
  have hlu : (updateReporting u (some m) db).lookup u =
      some { ur with reportingTo := some m } := by
    rw [lookup_updateReporting]
    simp [hlt]
  have hagree : ∀ x, x ≠ u →
      findRep (updateReporting u (some m) db) x = findRep db x := by
    intro x hx
    simp [findRep, lookup_updateReporting, hx]
  have hfm : findRep db m = some mr.reportingTo := by simp [findRep, hlm]
  have huh : UserHelpers.uhLoop db u (some mr.reportingTo) fuel = some false := by
    rw [← hfm]
    simpa [UserHelpers.willCreateCircularReporting] using hwcr
  obtain ⟨l, hcl⟩ := chainLoop_of_uhLoop_false hagree fuel mr.reportingTo huh
  refine ⟨fuel + 1, l, ?_⟩
  rw [getReportingChainUp, hlu]
  simp only
  rw [chainLoop, hagree m hmu, hfm]
  simp only
  rw [hcl]
  rfl

/-- Witness for C10: after successfully assigning user 1 to report to the
senior same-branch user 2, the upward chain of user 1 starts with 2. -/
theorem assign_then_chainUp_head_witness :
    ∃ g l, getReportingChainUp (updateReporting 1 (some 2) exOkDb) 1 g =
      some (.ok (2 :: l)) :=
  @assign_then_chainUp_head exOkDb (updateReporting 1 (some 2) exOkDb) 1 2 1 rfl

/-- **C9** (counterexample): on a store whose `reportingTo` relation
already contains the cycle `1 → 2 → 1` not passing through the target
user `0`, the `user.helpers.js` walk — the one `assignReportingAuthority`
actually imports — never terminates: it returns no result at any number
of hops. -/
theorem userHelpers_walk_diverges_on_existing_cycle :
    ¬ UserHelpers.Terminates exCycleDb 0 (some 1) := by
  have key : ∀ f, UserHelpers.uhLoop exCycleDb 0 (some (some 2)) f = none ∧
      UserHelpers.uhLoop exCycleDb 0 (some (some 1)) f = none := by
    intro f
    induction f with
    | zero => exact ⟨rfl, rfl⟩
    | succ n ih =>
      constructor
      · rw [UserHelpers.uhLoop, if_neg (by omega)]
        have h2 : findRep exCycleDb 2 = some (some 1) := rfl
        rw [h2]
        exact ih.2
      · rw [UserHelpers.uhLoop, if_neg (by omega)]
        have h1 : findRep exCycleDb 1 = some (some 2) := rfl
        rw [h1]
        exact ih.1
  rintro ⟨fuel, hf⟩
  rw [UserHelpers.willCreateCircularReporting] at hf
  have h1 : findRep exCycleDb 1 = some (some 2) := rfl
  rw [h1, (key fuel).1] at hf
  simp at hf

/-- **C9** (amended): the visited-set traversal of `reporting.helpers.js`
terminates on every stored relation within total-user-count hops; and for
both helper variants a walk whose first record is missing, or stores no
`reportingTo`, ends immediately with no cycle found.  (The variant
imported by `assignReportingAuthority`, from `user.helpers.js`, does not
terminate on a pre-existing cycle avoiding the target — see the
counterexample.) -/
theorem circular_walk_termination :
    (∀ (db : UDb) (uid : Nat) (rid : Option Nat) (fuel : Nat),
        db.length < fuel →
        ReportingHelpers.willCreateCircularReporting db uid rid fuel ≠ none) ∧
    (∀ (db : UDb) (uid rid : Nat) (fuel : Nat), 0 < fuel →
        db.lookup rid = none →
        UserHelpers.willCreateCircularReporting db uid (some rid) fuel =
          some false ∧
        ReportingHelpers.willCreateCircularReporting db uid (some rid) fuel =
          some false) ∧
    (∀ (db : UDb) (uid rid : Nat) (r : UserRec) (fuel : Nat), 0 < fuel →
        db.lookup rid = some r → r.reportingTo = none →
        UserHelpers.willCreateCircularReporting db uid (some rid) fuel =
          some false ∧
        ReportingHelpers.willCreateCircularReporting db uid (some rid) fuel =
          some false) := by
  refine ⟨?_, ?_, ?_⟩
  · intro db uid rid fuel h
    apply rhLoop_terminates
    simpa using h
  · intro db uid rid fuel hf hl
    obtain ⟨k, rfl⟩ : ∃ k, fuel = k + 1 := ⟨fuel - 1, by omega⟩
    have hfr : findRep db rid = none := by simp [findRep, hl]
    constructor
    · rw [UserHelpers.willCreateCircularReporting]
      rw [hfr, UserHelpers.uhLoop]
    · rw [ReportingHelpers.willCreateCircularReporting, ReportingHelpers.rhLoop]
      simp only [List.not_mem_nil, if_false]
      rw [hfr]
  · intro db uid rid r fuel hf hl hr
    obtain ⟨k, rfl⟩ : ∃ k, fuel = k + 1 := ⟨fuel - 1, by omega⟩
    have hfr : findRep db rid = some none := by simp [findRep, hl, hr]
    constructor
    · rw [UserHelpers.willCreateCircularReporting]
      rw [hfr, UserHelpers.uhLoop]
    · rw [ReportingHelpers.willCreateCircularReporting, ReportingHelpers.rhLoop]
      simp only [List.not_mem_nil, if_false]
      rw [hfr]

/-- Witness for the amended C9: even on the cyclic store, the visited-set
walk of `reporting.helpers.js` terminates within `length + 1 = 3` hops. -/
theorem circular_walk_termination_witness :
    ReportingHelpers.willCreateCircularReporting exCycleDb 0 (some 1) 3 ≠
      none :=
  circular_walk_termination.1 exCycleDb 0 (some 1) 3 (by decide)

/-! ## Claim theorems: session / lockout machine -/

/-- **C1**: a failed authentication against an unlocked credential
increments the failed-attempt counter; when the counter reaches 3 the
lock level is incremented, the counter resets to 0, and `lockUntil`
becomes now + 1/3/5 minutes for new lock levels 1/2/3, while reaching
level 4 or above sets the permanent lock instead of a timed one.  In
particular `attempts = 2, lockLevel = 0` ends at
`lockLevel = 1, attempts = 0, lockUntil = now + 60 s`. -/
theorem loginUser_failed_attempt_lockout
    (logins : List LoginRec) (reqUsername reqPassword : String)
    (reqDeviceId : Option String) (now : Nat)
    (ip ua freshId newAccess newRefresh : String)
    (login : LoginRec) (user : UserDoc)
    (hu : reqUsername.isEmpty = false) (hp : reqPassword.isEmpty = false)
    (hfind : loginFindOne logins reqUsername = some login)
    (huser : login.user = some user)
    (hact : user.isActive = true) (hcan : user.canLogin = true)
    (hperm : login.isPermanentlyLocked = false)
    (hlock : lockActive login.lockUntil now = false)
    (hmis : (reqPassword != login.password) = true) :
    (login.failedLoginAttempts + 1 < 3 →
      loginUser logins reqUsername reqPassword reqDeviceId now ip ua freshId
          newAccess newRefresh =
        (.invalidCredentials (3 - (login.failedLoginAttempts + 1)),
         some { login with
           failedLoginAttempts := login.failedLoginAttempts + 1 })) ∧
    (login.failedLoginAttempts + 1 ≥ 3 →
      (login.lockLevel = 0 →
        loginUser logins reqUsername reqPassword reqDeviceId now ip ua freshId
            newAccess newRefresh =
          (.lockedNow 1,
           some { login with
             failedLoginAttempts := 0, lockLevel := 1,
             lockUntil := some (now + 1 * 60000) })) ∧
      (login.lockLevel = 1 →
        loginUser logins reqUsername reqPassword reqDeviceId now ip ua freshId
            newAccess newRefresh =
          (.lockedNow 3,
           some { login with
             failedLoginAttempts := 0, lockLevel := 2,
             lockUntil := some (now + 3 * 60000) })) ∧
      (login.lockLevel = 2 →
        loginUser logins reqUsername reqPassword reqDeviceId now ip ua freshId
            newAccess newRefresh =
          (.lockedNow 5,
           some { login with
             failedLoginAttempts := 0, lockLevel := 3,
             lockUntil := some (now + 5 * 60000) })) ∧
      (3 ≤ login.lockLevel →
        loginUser logins reqUsername reqPassword reqDeviceId now ip ua freshId
            newAccess newRefresh =
          (.nowPermanentlyLocked,
           some { login with
             failedLoginAttempts := 0, lockLevel := login.lockLevel + 1,
             isPermanentlyLocked := true }))) := by
  have hred : loginUser logins reqUsername reqPassword reqDeviceId now ip ua
      freshId newAccess newRefresh =
      (if login.failedLoginAttempts + 1 ≥ 3 then
        match login.lockLevel + 1 with
        | 1 => (.lockedNow 1,
            some { login with
              failedLoginAttempts := 0, lockLevel := 1,
              lockUntil := some (now + 1 * 60000) })
        | 2 => (.lockedNow 3,
            some { login with
              failedLoginAttempts := 0, lockLevel := 2,
              lockUntil := some (now + 3 * 60000) })
        | 3 => (.lockedNow 5,
            some { login with
              failedLoginAttempts := 0, lockLevel := 3,
              lockUntil := some (now + 5 * 60000) })
        | _ => (.nowPermanentlyLocked,
            some { login with
              failedLoginAttempts := 0, lockLevel := login.lockLevel + 1,
              isPermanentlyLocked := true })
      else (.invalidCredentials (3 - (login.failedLoginAttempts + 1)),
            some { login with
              failedLoginAttempts := login.failedLoginAttempts + 1 })) := by
    rw [loginUser.eq_def, hu, hp]
    simp only [Bool.or_self, Bool.false_eq_true, if_false]
    rw [hfind]
    simp only
    rw [huser]
    simp only
    rw [hact, hcan, hperm, hlock, hmis]
    simp only [Bool.not_true, Bool.false_eq_true, if_false, if_true]
  constructor
  · intro h3
    rw [hred, if_neg (by omega)]
  · intro h3
    rw [hred, if_pos h3]
    refine ⟨?_, ?_, ?_, ?_⟩
    · intro h0; rw [h0]
    · intro h1; rw [h1]
    · intro h2; rw [h2]
    · intro hge
      obtain ⟨k, hk⟩ : ∃ k, login.lockLevel = k + 3 :=
        ⟨login.lockLevel - 3, by omega⟩
      rw [hk]
      rfl

/-- Witness for C1: the §8 scenario — a credential with `attempts = 2`,
`lockLevel = 0` submitting a wrong secret ends with `lockLevel = 1`,
`attempts = 0`, `lockUntil = now + 60 s`. -/
theorem loginUser_failed_attempt_lockout_witness :
    loginUser
        [{ username := "alice", password := "pw", user := some {},
           failedLoginAttempts := 2 }] "alice" "wrong" none 100000
        "ip" "ua" "fresh" "acc" "ref" =
      (.lockedNow 1,
       some { username := "alice", password := "pw", user := some {},
              failedLoginAttempts := 0, lockLevel := 1,
              lockUntil := some (100000 + 1 * 60000) }) := by
  have h := loginUser_failed_attempt_lockout
    [{ username := "alice", password := "pw", user := some {},
       failedLoginAttempts := 2 }]
    "alice" "wrong" none 100000 "ip" "ua" "fresh" "acc" "ref"
    { username := "alice", password := "pw", user := some {},
      failedLoginAttempts := 2 }
    {} (by decide) (by decide) (by decide) rfl rfl rfl rfl rfl (by decide)
  exact (h.2 (by decide)).1 rfl

/-- **C2** (counterexample): on the already-logged-in short-circuit the
lock-field resets of lines 89–92 are never persisted — the operation
returns before `login.save()`, so a credential that authenticates
successfully with two stored failed attempts still has
`failedLoginAttempts = 2` (and `lockLevel = 1`) in the store. -/
theorem loginUser_already_logged_in_reset_not_persisted :
    loginUser [exLogin] "alice" "pw" (some "d1") 100000 "ip" "ua" "fresh"
        "acc" "ref" = (.alreadyLoggedIn "d1", some exLogin) ∧
    exLogin.failedLoginAttempts = 2 ∧ exLogin.lockLevel = 1 ∧
    exLogin.lockUntil = some 5 := by
  exact ⟨rfl, rfl, rfl, rfl⟩

theorem loginDevicePhase_success_fields
    {login1 : LoginRec} {user : UserDoc} {login : LoginRec}
    {cdid : String} {now : Nat} {ip ua na nr did acc ref : String}
    {rec : LoginRec}
    (h : loginDevicePhase login1 user login cdid now ip ua na nr =
      (.loginSuccess did acc ref, some rec)) :
    rec.failedLoginAttempts = login1.failedLoginAttempts ∧
    rec.lockLevel = login1.lockLevel ∧
    rec.lockUntil = login1.lockUntil ∧
    rec.isPermanentlyLocked = login1.isPermanentlyLocked := by
  rw [loginDevicePhase.eq_def] at h
  simp only at h
  repeat' split at h
  all_goals try exact LoginOutcome.noConfusion (congrArg Prod.fst h)
  all_goals
    (have h3 := Option.some_inj.mp (congrArg Prod.snd h)
     rw [← h3]
     exact ⟨rfl, rfl, rfl, rfl⟩)

/-- **C2** (amended): on every successful-authentication path that reaches
`login.save()` — a new history entry appended to a matched device, or a
new device registered — the persisted credential has
`attempts = lockLevel = 0`, `lockUntil = null`,
`permanentlyLocked = false`; the already-logged-in short-circuit persists
nothing, leaving the stored counters as they were. -/
theorem loginUser_success_resets_persisted
    (logins : List LoginRec) (reqUsername reqPassword : String)
    (reqDeviceId : Option String) (now : Nat)
    (ip ua freshId newAccess newRefresh : String)
    (did acc ref : String) (rec : LoginRec)
    (h : loginUser logins reqUsername reqPassword reqDeviceId now ip ua freshId
        newAccess newRefresh = (.loginSuccess did acc ref, some rec)) :
    rec.failedLoginAttempts = 0 ∧ rec.lockLevel = 0 ∧ rec.lockUntil = none ∧
      rec.isPermanentlyLocked = false := by
  rw [loginUser.eq_def] at h
  simp only at h
  repeat' split at h
  all_goals try exact LoginOutcome.noConfusion (congrArg Prod.fst h)
  all_goals
    (have hf := loginDevicePhase_success_fields h
     simpa using hf)

/-- Witness for the amended C2: a fresh credential logging in with the
correct secret registers a new device, and the persisted record has the
lock fields in their zero/null state. -/
theorem loginUser_success_resets_persisted_witness :
    ∃ rec, loginUser [{ username := "alice", password := "pw", user := some {} }]
        "alice" "pw" (some "d1") 100000 "ip" "ua" "fresh" "acc" "ref" =
      (.loginSuccess "d1" "acc" "ref", some rec) ∧
      rec.failedLoginAttempts = 0 ∧ rec.lockLevel = 0 ∧ rec.lockUntil = none ∧
      rec.isPermanentlyLocked = false := by
  have heq : loginUser [{ username := "alice", password := "pw", user := some {} }]
      "alice" "pw" (some "d1") 100000 "ip" "ua" "fresh" "acc" "ref" =
      (.loginSuccess "d1" "acc" "ref",
       some { username := "alice", password := "pw",
              user := some { lastLogin := some 100000 }, isLoggedIn := true,
              loggedInDevices :=
                [{ deviceId := "d1", ipAddress := "ip", userAgent := "ua",
                   loginCount := 1, refreshToken := some "ref",
                   loginHistory := [{ loginAt := 100000 }] }] }) := by decide
  refine ⟨_, heq, ?_⟩
  exact loginUser_success_resets_persisted
    [{ username := "alice", password := "pw", user := some {} }]
    "alice" "pw" (some "d1") 100000 "ip" "ua" "fresh" "acc" "ref"
    "d1" "acc" "ref" _ heq

theorem loginUser_success_gate
    (logins : List LoginRec) (reqUsername reqPassword : String)
    (reqDeviceId : Option String) (now : Nat)
    (ip ua freshId newAccess newRefresh : String)
    (login : LoginRec) (user : UserDoc)
    (hu : reqUsername.isEmpty = false) (hp : reqPassword.isEmpty = false)
    (hfind : loginFindOne logins reqUsername = some login)
    (huser : login.user = some user)
    (hact : user.isActive = true) (hcan : user.canLogin = true)
    (hperm : login.isPermanentlyLocked = false)
    (hlock : lockActive login.lockUntil now = false)
    (hmatch : (reqPassword != login.password) = false) :
    loginUser logins reqUsername reqPassword reqDeviceId now ip ua freshId
        newAccess newRefresh =
      loginDevicePhase
        { login with
          failedLoginAttempts := 0, lockLevel := 0,
          lockUntil := none, isPermanentlyLocked := false }
        user login
        (match reqDeviceId with
         | some d => if d.isEmpty then freshId else d
         | none => freshId)
        now ip ua newAccess newRefresh := by
  rw [loginUser.eq_def, hu, hp]
  simp only [Bool.or_self, Bool.false_eq_true, if_false]
  rw [hfind]
  simp only
  rw [huser]
  simp only
  rw [hact, hcan, hperm, hlock, hmatch]
  simp only [Bool.not_true, Bool.false_eq_true, if_false, if_true]

theorem loginDevicePhase_device_limit
    {login1 : LoginRec} {user : UserDoc} {login : LoginRec} {cdid : String}
    {now : Nat} {ip ua na nr : String}
    (hn1 : login1.loggedInDevices.find? (fun d => d.deviceId == cdid) = none)
    (hn2 : login1.loggedInDevices.find?
      (fun d => d.ipAddress == ip && d.userAgent == ua) = none)
    (hlim : login1.loggedInDevices.length ≥ login1.maxAllowedDevices) :
    loginDevicePhase login1 user login cdid now ip ua na nr =
      (.deviceLimitExceeded login1.maxAllowedDevices, some login) := by
  rw [loginDevicePhase.eq_def]
  simp only
  rw [hn1, hn2]
  simp only
  rw [if_pos hlim]

theorem loginDevicePhase_already_open_id
    {login1 : LoginRec} {user : UserDoc} {login : LoginRec} {cdid : String}
    {now : Nat} {ip ua na nr : String} {dev : Device} {s : SessionEntry}
    (hfound : login1.loggedInDevices.find? (fun d => d.deviceId == cdid) =
      some dev)
    (hlast : dev.loginHistory.getLast? = some s) (hopen : s.logoutAt = none) :
    loginDevicePhase login1 user login cdid now ip ua na nr =
      (.alreadyLoggedIn dev.deviceId, some login) := by
  rw [loginDevicePhase.eq_def]
  simp only
  rw [hfound]
  simp only
  rw [hlast]
  simp only [hopen, Option.isNone_none, if_true]

theorem loginDevicePhase_already_open_addr
    {login1 : LoginRec} {user : UserDoc} {login : LoginRec} {cdid : String}
    {now : Nat} {ip ua na nr : String} {dev : Device} {s : SessionEntry}
    (hn1 : login1.loggedInDevices.find? (fun d => d.deviceId == cdid) = none)
    (hfound : login1.loggedInDevices.find?
      (fun d => d.ipAddress == ip && d.userAgent == ua) = some dev)
    (hlast : dev.loginHistory.getLast? = some s) (hopen : s.logoutAt = none) :
    loginDevicePhase login1 user login cdid now ip ua na nr =
      (.alreadyLoggedIn dev.deviceId, some login) := by
  rw [loginDevicePhase.eq_def]
  simp only
  rw [hn1, hfound]
  simp only
  rw [hlast]
  simp only [hopen, Option.isNone_none, if_true]

/-- **C8**: after a successful secret check with a supplied device id,
(1) if no registered device matches the id and none matches the
(IP, user-agent) pair while the registry already holds at least
`maxAllowedDevices` entries, the operation fails with the device-limit
error and the stored record — hence the registry — is unchanged;
(2)–(3) if the resolved device (by id, or by address fallback) has an
open last session, the operation returns the already-logged-in success
without persisting anything: no history entry is appended and no
credentials are stored; and (4) a schema-default credential has
`maxAllowedDevices = 2`. -/
theorem loginUser_device_admission
    (logins : List LoginRec) (reqUsername reqPassword : String)
    (reqDeviceId : Option String) (now : Nat)
    (ip ua freshId newAccess newRefresh : String)
    (login : LoginRec) (user : UserDoc) (cdid : String)
    (hu : reqUsername.isEmpty = false) (hp : reqPassword.isEmpty = false)
    (hfind : loginFindOne logins reqUsername = some login)
    (huser : login.user = some user)
    (hact : user.isActive = true) (hcan : user.canLogin = true)
    (hperm : login.isPermanentlyLocked = false)
    (hlock : lockActive login.lockUntil now = false)
    (hmatch : (reqPassword != login.password) = false)
    (hdid : reqDeviceId = some cdid) (hcne : cdid.isEmpty = false) :
    ((∀ d ∈ login.loggedInDevices, (d.deviceId == cdid) = false) →
     (∀ d ∈ login.loggedInDevices,
        (d.ipAddress == ip && d.userAgent == ua) = false) →
     login.loggedInDevices.length ≥ login.maxAllowedDevices →
      loginUser logins reqUsername reqPassword reqDeviceId now ip ua freshId
          newAccess newRefresh =
        (.deviceLimitExceeded login.maxAllowedDevices, some login)) ∧
    (∀ dev s,
      login.loggedInDevices.find? (fun d => d.deviceId == cdid) = some dev →
      dev.loginHistory.getLast? = some s → s.logoutAt = none →
      loginUser logins reqUsername reqPassword reqDeviceId now ip ua freshId
          newAccess newRefresh = (.alreadyLoggedIn dev.deviceId, some login)) ∧
    (∀ dev s,
      login.loggedInDevices.find? (fun d => d.deviceId == cdid) = none →
      login.loggedInDevices.find?
        (fun d => d.ipAddress == ip && d.userAgent == ua) = some dev →
      dev.loginHistory.getLast? = some s → s.logoutAt = none →
      loginUser logins reqUsername reqPassword reqDeviceId now ip ua freshId
          newAccess newRefresh = (.alreadyLoggedIn dev.deviceId, some login)) ∧
    (∀ (u : Option UserDoc) (n p : String),
      (defaultLoginRec u n p).maxAllowedDevices = 2) := by
  subst hdid
  have hgate := loginUser_success_gate logins reqUsername reqPassword
    (some cdid) now ip ua freshId newAccess newRefresh login user
    hu hp hfind huser hact hcan hperm hlock hmatch
  have hcdid : (match some cdid with
      | some d => if d.isEmpty then freshId else d
      | none => freshId : String) = cdid := by
    simp [hcne]
  rw [hcdid] at hgate
  refine ⟨?_, ?_, ?_, ?_⟩
  · intro hna hnb hlim
    rw [hgate]
    exact loginDevicePhase_device_limit
      (List.find?_eq_none.mpr (fun d hd => by simp [hna d hd]))
      (List.find?_eq_none.mpr (fun d hd => by simp [hnb d hd]))
      hlim
  · intro dev s hfound hlast hopen
    rw [hgate]
    exact loginDevicePhase_already_open_id hfound hlast hopen
  · intro dev s hn1 hfound hlast hopen
    rw [hgate]
    exact loginDevicePhase_already_open_addr hn1 hfound hlast hopen
  · intro u n p
    rfl

/-- Witness for C8: against the credential `exLogin`, whose device `d1`
has an open session, authenticating with the correct secret and device id
`d1` short-circuits with the already-logged-in response and persists
nothing. -/
theorem loginUser_device_admission_witness :
    loginUser [exLogin] "alice" "pw" (some "d1") 100000 "ip" "ua" "fresh"
        "acc" "ref" = (.alreadyLoggedIn "d1", some exLogin) := by
  have h := (loginUser_device_admission [exLogin] "alice" "pw" (some "d1")
    100000 "ip" "ua" "fresh" "acc" "ref" exLogin {} "d1"
    (by decide) (by decide) (by decide) rfl rfl rfl rfl (by decide) (by decide)
    rfl (by decide)).2.1
  exact h
    { deviceId := "d1", ipAddress := "ip1", userAgent := "ua1",
      loginCount := 1, refreshToken := some "r0",
      loginHistory := [{ loginAt := 1 }] }
    { loginAt := 1 }
    (by decide) (by decide) rfl

/-- **C5**: `reAuthenticateUser` checks only that the credential record
exists and the secret matches: the account's `isActive` and `canLogin`
flags, any temporary lock, and the permanent-lock flag are never
consulted (the record and user below are arbitrary, locked or not), so a
permanently locked credential still receives a fresh access token; and a
wrong secret is rejected without touching the stored record — the
failed-attempt counter is not incremented. -/
theorem reAuthenticate_ignores_lock_state
    (logins : List (Nat × LoginRec)) (uid : Nat) (login : LoginRec)
    (user : UserDoc) (pwd newAccess : String)
    (hl : logins.lookup uid = some login) (huser : login.user = some user)
    (hne : pwd.isEmpty = false) :
    (pwd = login.password →
      reAuthenticateUser logins (some uid) pwd newAccess =
        (.reauthenticated newAccess, logins)) ∧
    (pwd ≠ login.password →
      reAuthenticateUser logins (some uid) pwd newAccess =
        (.incorrectPassword, logins)) := by
  constructor
  · intro hpw
    have hbne : (pwd != login.password) = false := by simp [hpw]
    rw [reAuthenticateUser, hne]
    simp only [Bool.false_eq_true, if_false]
    rw [hl]
    simp only
    rw [hbne]
    simp only [Bool.false_eq_true, if_false]
    rw [huser]
  · intro hpw
    have hbne : (pwd != login.password) = true := by
      simp [bne_iff_ne]
      exact hpw
    rw [reAuthenticateUser, hne]
    simp only [Bool.false_eq_true, if_false]
    rw [hl]
    simp only
    rw [hbne]
    simp

/-- Witness for C5: the permanently locked, inactive, login-disabled
credential `exLockedLogin` still re-authenticates successfully with the
correct secret, and the store is unchanged. -/
theorem reAuthenticate_ignores_lock_state_witness :
    reAuthenticateUser [(7, exLockedLogin)] (some 7) "pw" "acc" =
      (.reauthenticated "acc", [(7, exLockedLogin)]) :=
  (reAuthenticate_ignores_lock_state [(7, exLockedLogin)] 7 exLockedLogin
    { isActive := false, canLogin := false } "pw" "acc"
    (by decide) rfl (by decide)).1 rfl

/-- **C7**: for a cryptographically valid refresh credential and device
id, a new access credential is issued only when the device registry entry
for that id stores exactly the supplied refresh credential; any other
case with the record found fails with the invalid/revoked-token error and
issues nothing, and the operation never mutates the store — in
particular the stored refresh credential is not rotated. -/
theorem refreshToken_requires_exact_stored_match
    (logins : List (Nat × LoginRec)) (verify : String → Option Nat)
    (tok did newAccess : String) (uid : Nat) (login : LoginRec)
    (htok : tok.isEmpty = false) (hdid : did.isEmpty = false)
    (hver : verify tok = some uid)
    (hl : logins.lookup uid = some login) :
    ((∀ d ∈ login.loggedInDevices,
        ¬(d.deviceId = did ∧ d.refreshToken = some tok)) →
      refreshAccessToken logins verify (some tok) (some did) newAccess =
        (.invalidOrRevoked, logins)) ∧
    (∀ a, (refreshAccessToken logins verify (some tok) (some did)
        newAccess).1 = .refreshed a →
      ∃ d ∈ login.loggedInDevices, d.deviceId = did ∧
        d.refreshToken = some tok) ∧
    (refreshAccessToken logins verify (some tok) (some did) newAccess).2 =
      logins := by
  have hguard : (!jsPresentStr (some tok) || !jsPresentStr (some did)) = false := by
    simp [jsPresentStr, htok, hdid]
  refine ⟨?_, ?_, ?_⟩
  · intro hno
    have hfn : login.loggedInDevices.find?
        (fun d => d.deviceId == did && d.refreshToken == some tok) = none := by
      refine List.find?_eq_none.mpr (fun d hd => ?_)
      have := hno d hd
      simp only [Bool.and_eq_true, beq_iff_eq]
      intro hc
      exact this ⟨hc.1, hc.2⟩
    rw [refreshAccessToken, hguard]
    simp only [Bool.false_eq_true, if_false]
    rw [hver]
    simp only
    rw [hl]
    simp only
    rw [hfn]
  · intro a ha
    rw [refreshAccessToken, hguard] at ha
    simp only [Bool.false_eq_true, if_false] at ha
    rw [hver] at ha
    simp only at ha
    rw [hl] at ha
    simp only at ha
    cases hf : login.loggedInDevices.find?
        (fun d => d.deviceId == did && d.refreshToken == some tok) with
    | none => rw [hf] at ha; cases ha
    | some d =>
      rw [hf] at ha
      have hmem := List.mem_of_find?_eq_some hf
      have hprop := List.find?_some hf
      simp only [Bool.and_eq_true, beq_iff_eq] at hprop
      exact ⟨d, hmem, hprop.1, hprop.2⟩
  · rw [refreshAccessToken, hguard]
    simp only [Bool.false_eq_true, if_false]
    rw [hver]
    simp only
    rw [hl]
    simp only
    cases hf : login.loggedInDevices.find?
        (fun d => d.deviceId == did && d.refreshToken == some tok) with
    | none => rfl
    | some d =>
      cases hu : login.user with
      | none => rfl
      | some u => by_cases hia : u.isActive <;> simp [hia]

/-- Witness for C7: `exLogin`'s device `d1` stores refresh token `r0`;
presenting a well-formed but superseded token `r1` for `d1` is rejected
as revoked, and the store is unchanged. -/
theorem refreshToken_requires_exact_stored_match_witness :
    refreshAccessToken [(7, exLogin)] (fun t => if t = "r1" then some 7 else none)
        (some "r1") (some "d1") "acc" = (.invalidOrRevoked, [(7, exLogin)]) := by
  have h := (refreshToken_requires_exact_stored_match [(7, exLogin)]
    (fun t => if t = "r1" then some 7 else none) "r1" "d1" "acc" 7 exLogin
    (by decide) (by decide) (by decide) (by decide)).1
    (by decide)
  have h2 := (refreshToken_requires_exact_stored_match [(7, exLogin)]
    (fun t => if t = "r1" then some 7 else none) "r1" "d1" "acc" 7 exLogin
    (by decide) (by decide) (by decide) (by decide)).2.2
  rw [h]

/-- A filter callback that throws on every element makes
`Array.prototype.filter` throw exactly when the array is non-empty. -/
theorem filterE_error {α : Type} (g : α → Except JsErr Bool)
    (hg : ∀ x, g x = .error .referenceError) :
    ∀ l : List α, l ≠ [] → filterE g l = .error .referenceError := by
  intro l hl
  cases l with
  | nil => exact absurd rfl hl
  | cons x xs => simp [filterE, hg x, Bind.bind, Except.bind]

/-- **C6** (counterexample): when the fetched target list is empty the
`canLogout` reference is never evaluated — `filter` does not invoke its
callback on an empty array — so `logoutAllBelowUsers` (actor found, level
gate passed) returns the 200 success response reporting zero users, not
the 500 error the claim asserts for every request. -/
theorem logoutAllBelow_no_targets_returns_success :
    logoutAllBelowUsers 1 [(1, { level := none })] [] 0 =
      (.loggedOutAll 0, []) ∧
    (.loggedOutAll 0 : BulkOutcome) ≠ .internalError := by
  exact ⟨rfl, by decide⟩

/-- **C6** (amended): whenever the bulk-termination controllers fetch at
least one target user, evaluating the eligibility filter resolves the
identifier `canLogout`, which is neither defined nor imported in
`auth.controllers.js`; the resulting `ReferenceError` is caught and the
operation returns the 500 error.  With no fetched targets,
`logoutSelectedUsers` returns the 403 no-eligible response and
`logoutAllBelowUsers` a 200 success over zero users.  In every case the
credential store is untouched: the seniority-gated bulk termination never
closes a session. -/
theorem bulk_logout_never_succeeds :
    (∀ (ids : List Nat) (actorId : Nat) (users : List (Nat × RoleDoc))
        (logins : List (Nat × LoginRec)) (now : Nat) (actorRole : RoleDoc),
      ids ≠ [] → users.lookup actorId = some actorRole →
      users.filter (fun p => decide (p.1 ∈ ids)) ≠ [] →
      logoutSelectedUsers (some ids) actorId users logins now =
        (.internalError, logins)) ∧
    (∀ (ids : List Nat) (actorId : Nat) (users : List (Nat × RoleDoc))
        (logins : List (Nat × LoginRec)) (now : Nat) (actorRole : RoleDoc),
      ids ≠ [] → users.lookup actorId = some actorRole →
      users.filter (fun p => decide (p.1 ∈ ids)) = [] →
      logoutSelectedUsers (some ids) actorId users logins now =
        (.noEligible, logins)) ∧
    (∀ (actorId : Nat) (users : List (Nat × RoleDoc))
        (logins : List (Nat × LoginRec)) (now : Nat) (actorRole : RoleDoc),
      users.lookup actorId = some actorRole →
      jsGtNat actorRole.level 2 = false →
      users.filter (fun p => decide (p.1 ≠ actorId)) ≠ [] →
      logoutAllBelowUsers actorId users logins now =
        (.internalError, logins)) ∧
    (∀ (actorId : Nat) (users : List (Nat × RoleDoc))
        (logins : List (Nat × LoginRec)) (now : Nat) (actorRole : RoleDoc),
      users.lookup actorId = some actorRole →
      jsGtNat actorRole.level 2 = false →
      users.filter (fun p => decide (p.1 ≠ actorId)) = [] →
      logoutAllBelowUsers actorId users logins now =
        (.loggedOutAll 0, logins)) := by
  have hresolve : resolveIdent authControllersScope "canLogout" =
      .error .referenceError := by
    rw [resolveIdent, if_neg (by decide)]
  refine ⟨?_, ?_, ?_, ?_⟩
  · intro ids actorId users logins now actorRole hids hactor htgt
    have hne : ids.isEmpty = false := by
      cases ids with
      | nil => exact absurd rfl hids
      | cons a l => rfl
    rw [logoutSelectedUsers]
    simp only
    rw [hne]
    simp only [Bool.false_eq_true, if_false]
    rw [hactor]
    simp only
    rw [filterE_error _ (fun u => by rw [hresolve]; rfl) _ htgt]
  · intro ids actorId users logins now actorRole hids hactor htgt
    have hne : ids.isEmpty = false := by
      cases ids with
      | nil => exact absurd rfl hids
      | cons a l => rfl
    rw [logoutSelectedUsers]
    simp only
    rw [hne]
    simp only [Bool.false_eq_true, if_false]
    rw [hactor]
    simp only
    rw [htgt]
    simp [filterE]
  · intro actorId users logins now actorRole hactor hgate htgt
    rw [logoutAllBelowUsers, hactor]
    simp only
    rw [hgate]
    simp only [Bool.false_eq_true, if_false]
    rw [filterE_error _ (fun u => by rw [hresolve]; rfl) _ htgt]
  · intro actorId users logins now actorRole hactor hgate htgt
    rw [logoutAllBelowUsers, hactor]
    simp only
    rw [hgate]
    simp only [Bool.false_eq_true, if_false]
    rw [htgt]
    simp [filterE]

/-- Witness for the amended C6: with one user below the actor, the
hierarchy-wide termination returns the 500 error and closes nothing: the
(locked) credential of user 2 is stored unchanged. -/
theorem bulk_logout_never_succeeds_witness :
    logoutAllBelowUsers 1 [(1, { level := none }), (2, { level := some 5 })]
        [(2, exLockedLogin)] 0 = (.internalError, [(2, exLockedLogin)]) :=
  bulk_logout_never_succeeds.2.2.1 1
    [(1, { level := none }), (2, { level := some 5 })] [(2, exLockedLogin)] 0
    { level := none } (by decide) (by decide) (by decide)
